import Mathlib

/-!
Shallow embedding of the StarSilk generative-animation core
(`src/Starsilk.tsx`) over exact rationals.

The source is JavaScript floating-point code.  We idealise IEEE doubles as
rationals and abstract the transcendental parts of the JS `Math` library
(`Math.sqrt` via `Math.hypot`, `Math.sin`, `Math.cos`, `Math.PI`) as an
explicit environment `MathEnv` that every definition threads through,
exactly where the source calls those functions.  `Math.random()` draws are
abstracted as an explicit stream of rationals `ℕ → ℚ`, consumed in the
order the source calls `Math.random()`.  All definitions below are
computable; theorems that need a property of a square root state it
pointwise, at the exact argument where the source takes the root, and
witnesses instantiate the environment with an integer square root that is
exact at every point they evaluate.
-/

namespace StarSilk

/-- Abstraction of the JS `Math` library: the transcendental functions the
source calls, as uninterpreted rational functions, plus the `Math.PI`
constant. -/
structure MathEnv where
  sqrt : ℚ → ℚ
  sin : ℚ → ℚ
  cos : ℚ → ℚ
  pi : ℚ

/-- `Math.hypot(x, y)` as used by the source: the square root of the sum of
squares. -/
def hypot (env : MathEnv) (x y : ℚ) : ℚ :=
  env.sqrt (x * x + y * y)

/-- 2D vector, mirroring the `Vec2` interface of the source. -/
structure Vec2 where
  x : ℚ
  y : ℚ
deriving DecidableEq, Repr

/-- `normalize` (Starsilk.tsx lines 9-13): zero vector for zero length,
otherwise the vector divided by its length. -/
def normalize (env : MathEnv) (v : Vec2) : Vec2 :=
  let len := hypot env v.x v.y
  if len = 0 then ⟨0, 0⟩ else ⟨v.x / len, v.y / len⟩

/-- `getNormal` (lines 15-17): the perpendicular vector `(-y, x)`. -/
def getNormal (v : Vec2) : Vec2 :=
  ⟨-v.y, v.x⟩

/-- `catmullRom` (lines 20-33): Catmull-Rom spline evaluation with the four
standard basis weights. -/
def catmullRom (p0 p1 p2 p3 : Vec2) (t : ℚ) : Vec2 :=
  let t2 := t * t
  let t3 := t2 * t
  let f0 := -(1/2) * t3 + t2 - (1/2) * t
  let f1 := (3/2) * t3 - (5/2) * t2 + 1
  let f2 := -(3/2) * t3 + 2 * t2 + (1/2) * t
  let f3 := (1/2) * t3 - (1/2) * t2
  ⟨p0.x * f0 + p1.x * f1 + p2.x * f2 + p3.x * f3,
   p0.y * f0 + p1.y * f1 + p2.y * f2 + p3.y * f3⟩

/-- Layout modes (line 36). -/
inductive LayoutMode where
  | default
  | tree
  | convergence
  | dna
  | river
deriving DecidableEq, Repr

/-- Effect modes (line 37). -/
inductive EffectMode where
  | default
  | vortex
  | surges
  | gravity
  | particles
deriving DecidableEq, Repr

/-- Configuration snapshot (lines 39-56). -/
structure Config where
  numStreams : ℕ
  startX : ℚ
  startY : ℚ
  endX : ℚ
  endY : ℚ
  layoutMode : LayoutMode
  effectMode : EffectMode
  audioReactive : Bool
  enableStars : Bool
  starDensity : ℚ
  starLuminosity : ℚ
  starFlickerSpeed : ℚ
  enableSun : Bool
  silkLuminosity : ℚ
  silkSpeed : ℚ
  variableSpeed : Bool
deriving DecidableEq, Repr

/-- A simulated control point (`class SilkNode`, lines 69-88): position,
origin, velocity, per-node phase offsets and owning stream index. -/
structure SilkNode where
  x : ℚ
  y : ℚ
  ox : ℚ
  oy : ℚ
  vx : ℚ
  vy : ℚ
  phaseOffsetX : ℚ
  phaseOffsetY : ℚ
  streamIndex : ℕ
deriving DecidableEq, Repr

/-- The layout-mode-specific oscillation added to a node's origin
(`SilkNode.update`, lines 91-111). -/
def driftOf (env : MathEnv) (cfg : Config) (node : SilkNode) (time : ℚ)
    (index : ℕ) (audioSim : ℚ) : ℚ × ℚ :=
  let audioBump := if cfg.audioReactive then audioSim * 20 else 0
  if cfg.layoutMode = LayoutMode.dna then
    let dnaPhase := (index : ℚ) * (1/5) - time * (1/500)
    let strandShift := if node.streamIndex % 2 = 0 then (0 : ℚ) else env.pi
    let amplitude := 60 + audioBump
    (env.cos (dnaPhase + strandShift) * amplitude,
     env.sin (dnaPhase + strandShift) * amplitude)
  else if cfg.layoutMode = LayoutMode.river then
    (env.sin (time * (1/5000) + (index : ℚ) * (1/20) + node.phaseOffsetX) * 20,
     env.cos (time * (3/10000) + (index : ℚ) * (1/20) + node.phaseOffsetY) * 30 + audioBump)
  else
    (env.sin (time * (1/2000) + (index : ℚ) * (1/10) + node.phaseOffsetX) * (80 + audioBump)
       + env.cos (time * (1/5000) - (index : ℚ) * (1/20) + node.phaseOffsetY) * 40,
     env.cos (time * (7/10000) + (index : ℚ) * (3/20) + node.phaseOffsetY) * (120 + audioBump)
       + env.sin (time * (3/10000) + (index : ℚ) * (2/25) + node.phaseOffsetX) * 60)

/-- The two fixed gravity wells (lines 119-122), positioned from the window
dimensions. -/
def gravityWells (winW winH : ℚ) : List (ℚ × ℚ × ℚ) :=
  [(winW * (3/10), winH * (7/10), 60000), (winW * (7/10), winH * (3/10), 60000)]

/-- One well's inverse-square pull on the drift target (lines 124-133),
gated on squared distance exceeding 1000. -/
def applyWell (env : MathEnv) (node : SilkNode) (acc : ℚ × ℚ)
    (well : ℚ × ℚ × ℚ) : ℚ × ℚ :=
  let dx := well.1 - node.x
  let dy := well.2.1 - node.y
  let distSq := dx * dx + dy * dy
  if distSq > 1000 then
    let force := well.2.2 / distSq
    (acc.1 + dx / env.sqrt distSq * force, acc.2 + dy / env.sqrt distSq * force)
  else acc

/-- The node's drift target: origin plus oscillation, pulled by the gravity
wells only under the `gravity` effect (lines 113-134). -/
def targetOf (env : MathEnv) (cfg : Config) (node : SilkNode) (time : ℚ)
    (index : ℕ) (audioSim : ℚ) (winW winH : ℚ) : ℚ × ℚ :=
  let d := driftOf env cfg node time index audioSim
  let t0 := (node.ox + d.1, node.oy + d.2)
  if cfg.effectMode = EffectMode.gravity then
    (gravityWells winW winH).foldl (applyWell env node) t0
  else t0

/-- The velocity contribution of the pointer interaction (lines 140-164):
an inward pull plus swirl within radius 400 under `vortex`, otherwise the
standard repulsion within radius 200, gated off at distance 0. -/
def mouseDelta (env : MathEnv) (cfg : Config) (node : SilkNode)
    (mouseX mouseY : ℚ) : ℚ × ℚ :=
  let dx := node.x - mouseX
  let dy := node.y - mouseY
  let dist := hypot env dx dy
  if cfg.effectMode = EffectMode.vortex then
    if dist < 400 ∧ dist > 10 then
      let force := 1000 / dist
      (-(dx / dist) * force * (1/20) + (dy / dist) * force * (1/20),
       -(dy / dist) * force * (1/20) - (dx / dist) * force * (1/20))
    else (0, 0)
  else
    let minDist : ℚ := 200
    if dist < minDist ∧ dist > 0 then
      let force := ((minDist - dist) / minDist) ^ 2
      ((dx / dist) * force * (3/2), (dy / dist) * force * (3/2))
    else (0, 0)

/-- One physics step of a node (`SilkNode.update`, lines 90-171): spring
toward the drift target, pointer interaction, Euler integration, then
velocity damping by the fixed factor 0.90. -/
def SilkNode.update (env : MathEnv) (cfg : Config) (node : SilkNode)
    (time : ℚ) (index : ℕ) (mouseX mouseY audioSim winW winH : ℚ) : SilkNode :=
  let tgt := targetOf env cfg node time index audioSim winW winH
  let rate : ℚ := if cfg.layoutMode = LayoutMode.river then 1/200 else 1/50
  let vx1 := node.vx + (tgt.1 - node.x) * rate
  let vy1 := node.vy + (tgt.2 - node.y) * rate
  let m := mouseDelta env cfg node mouseX mouseY
  let vx2 := vx1 + m.1
  let vy2 := vy1 + m.2
  { node with
      x := node.x + vx2
      y := node.y + vy2
      vx := vx2 * (9/10)
      vy := vy2 * (9/10) }

/-- One ribbon's state (`interface SilkStream`, lines 174-180). -/
structure SilkStream where
  nodes : List SilkNode
  colorPhase : ℚ
  surgeTime : ℚ
  speedMultiplier : ℚ
  localTime : ℚ
deriving DecidableEq, Repr

/-- Nodes per stream (line 264). -/
def numNodesPerStream : ℕ := 40

/-- The base end anchor computed before the per-stream loop of `initNodes`
(lines 302-312): the configured normalized end point, overridden to the
surface center for `convergence`. -/
def baseEnd (cfg : Config) (w h : ℚ) : ℚ × ℚ :=
  if cfg.layoutMode = LayoutMode.convergence then (w / 2, h / 2)
  else (cfg.endX / 100 * w, cfg.endY / 100 * h)

/-- A stream's start anchor (lines 323-336): bottom center for `tree`, a
point on a surrounding circle for `convergence`, the configured normalized
start otherwise. -/
def streamStart (env : MathEnv) (cfg : Config) (w h : ℚ) (s : ℕ) : ℚ × ℚ :=
  if cfg.layoutMode = LayoutMode.tree then (w / 2, h * (11/10))
  else if cfg.layoutMode = LayoutMode.convergence then
    let angle := ((s : ℚ) / (cfg.numStreams : ℚ)) * env.pi * 2
    (w / 2 + env.cos angle * w * (3/5), h / 2 + env.sin angle * h * (3/5))
  else (cfg.startX / 100 * w, cfg.startY / 100 * h)

/-- A stream's end anchor (lines 326-336): for `tree` the fan point
`(s / max(1, streamCount - 1)) × width` on the line `y = -0.1 × height`,
otherwise the base end anchor. -/
def streamEnd (cfg : Config) (w h : ℚ) (s : ℕ) : ℚ × ℚ :=
  if cfg.layoutMode = LayoutMode.tree then
    (((s : ℚ) / ((max 1 (cfg.numStreams - 1) : ℕ) : ℚ)) * w, h * (-(1/10)))
  else baseEnd cfg w h

/-- The per-stream perpendicular spacing (lines 343-348): 30 px by default,
10 px for `river`, zero for `dna`. -/
def perpOffset (cfg : Config) (s : ℕ) : ℚ :=
  if cfg.layoutMode = LayoutMode.river then
    ((s : ℚ) - ((cfg.numStreams / 2 : ℕ) : ℚ)) * 10
  else if cfg.layoutMode = LayoutMode.dna then 0
  else ((s : ℚ) - ((cfg.numStreams / 2 : ℕ) : ℚ)) * 30

/-- The unit normal of a stream's start-to-end segment (lines 338-341). -/
def streamNormalOf (env : MathEnv) (cfg : Config) (w h : ℚ) (s : ℕ) : Vec2 :=
  let st := streamStart env cfg w h s
  let en := streamEnd cfg w h s
  getNormal (normalize env ⟨en.1 - st.1, en.2 - st.2⟩)

/-- The origin (rest position) of node `i` of stream `s` as placed by
`initNodes` (lines 350-354): linear interpolation along the start-to-end
segment plus the perpendicular spacing term. -/
def nodeOrigin (env : MathEnv) (cfg : Config) (w h : ℚ) (s i : ℕ) : ℚ × ℚ :=
  let st := streamStart env cfg w h s
  let en := streamEnd cfg w h s
  let n := streamNormalOf env cfg w h s
  let t : ℚ := (i : ℚ) / ((numNodesPerStream : ℚ) - 1)
  (st.1 + t * (en.1 - st.1) + n.x * perpOffset cfg s,
   st.2 + t * (en.2 - st.2) + n.y * perpOffset cfg s)

/-- One stream as built by `initNodes` (lines 316-364).  The three
`Math.random()` draws of stream `s` (surge threshold, speed multiplier,
initial local clock, in source order) are the stream's entries of the
abstract draw sequence `rng`. -/
def initStream (env : MathEnv) (cfg : Config) (w h : ℚ) (rng : ℕ → ℚ)
    (s : ℕ) : SilkStream :=
  { nodes := (List.range numNodesPerStream).map fun i =>
      let o := nodeOrigin env cfg w h s i
      { x := o.1, y := o.2, ox := o.1, oy := o.2, vx := 0, vy := 0,
        phaseOffsetX := ((s : ℚ) / (cfg.numStreams : ℚ)) * env.pi * 4,
        phaseOffsetY := ((s : ℚ) / (cfg.numStreams : ℚ)) * env.pi * 2 + 1,
        streamIndex := s }
    colorPhase := (s : ℚ) * (3/10)
    surgeTime := rng (3 * s) * 10000
    speedMultiplier := 1/2 + rng (3 * s + 1) * (3/2)
    localTime := rng (3 * s + 2) * 10000 }

/-- The Layout Engine (`initNodes`, lines 299-365): the full list of
freshly created streams. -/
def initNodes (env : MathEnv) (cfg : Config) (w h : ℚ) (rng : ℕ → ℚ) :
    List SilkStream :=
  (List.range cfg.numStreams).map (initStream env cfg w h rng)

/-- The per-frame surge bookkeeping of the renderer (lines 504-513), as a
function of the effect mode, the stream-local clock, the current surge
threshold and the `Math.random()` draw used on reschedule: returns the
surging flag and the (possibly rescheduled) threshold. -/
def surgeCheck (effectMode : EffectMode) (sTime surgeTime rand : ℚ) :
    Bool × ℚ :=
  if effectMode = EffectMode.surges ∧ sTime > surgeTime then
    (true, if sTime > surgeTime + 800 then sTime + 2000 + rand * 8000 else surgeTime)
  else (false, surgeTime)

/-- The barcode drift speed of a stream (lines 525-526), tripled while the
stream is surging. -/
def driftSpeedOf (cfg : Config) (sTime : ℚ) (surging : Bool) : ℚ :=
  (sTime * (if cfg.layoutMode = LayoutMode.river then 1/1000 else 1/200))
    * (if surging then 3 else 1)

/-- The opacity of the continuous base band (line 551): `0.6` while
surging, `0.25` otherwise. -/
def baseBandAlpha (surging : Bool) : ℚ :=
  if surging then 3/5 else 1/4

/-- The first striation noise gate (lines 556-558): a curve point is
skipped when the barcode noise is below `-0.6` and the stream is not
surging. -/
def barcodeNoise (env : MathEnv) (progress driftSpeed streamOffset : ℚ) : ℚ :=
  env.sin (progress * 1200 - driftSpeed * 2 + streamOffset)
    + env.sin (progress * 2500 - driftSpeed * 4 + streamOffset) * (1/2)

/-- The second striation noise gate (lines 560-562): a bright line is
considered when the slice noise is positive or the stream is surging. -/
def sliceNoise (env : MathEnv) (progress driftSpeed streamOffset : ℚ) : ℚ :=
  env.sin (progress * 1500 - driftSpeed * 3 + streamOffset * 2)
    + env.cos (progress * 2800 - driftSpeed * 5)

/-- The three brightness outcomes of a gated curve point. -/
inductive Tier where
  | noLine
  | mediumLine
  | maxLine
deriving DecidableEq, Repr

/-- The intensity value drawn for a gated curve point (line 567): `1.0`
while surging, the uniform `Math.random()` draw otherwise. -/
def lineIntensity (surging : Bool) (rand : ℚ) : ℚ :=
  if surging then 1 else rand

/-- The brightness tier selected from the intensity value
(lines 569-588): maximum above `0.8`, medium above `0.3`, nothing
otherwise. -/
def tierOf (li : ℚ) : Tier :=
  if li > 4/5 then Tier.maxLine
  else if li > 3/10 then Tier.mediumLine
  else Tier.noLine

/-- The brightness outcome of a curve point that passed both striation
gates. -/
def striationTier (surging : Bool) (rand : ℚ) : Tier :=
  tierOf (lineIntensity surging rand)

/-- A short-lived emissive particle (`interface Particle`, lines 58-67). -/
structure Particle where
  x : ℚ
  y : ℚ
  vx : ℚ
  vy : ℚ
  life : ℚ
  maxLife : ℚ
  size : ℚ
  color : String
deriving DecidableEq, Repr

/-- `spawnParticles` (lines 386-398): a burst of three particles at the
given point; each particle consumes four `Math.random()` draws (vx, vy,
max life, size, in source order). -/
def spawnParticles (x y : ℚ) (color : String) (rng : ℕ → ℚ) : List Particle :=
  (List.range 3).map fun i =>
    { x := x, y := y,
      vx := (rng (4 * i) - 1/2) * 4,
      vy := (rng (4 * i + 1) - 1/2) * 4,
      life := 0,
      maxLife := 30 + rng (4 * i + 2) * 40,
      size := 1 + rng (4 * i + 3) * 2,
      color := color }

/-- The per-frame motion and aging of one particle (lines 596-600):
position advances by the constant velocity and the age increases by one. -/
def ageParticle (p : Particle) : Particle :=
  { p with x := p.x + p.vx, y := p.y + p.vy, life := p.life + 1 }

/-- The rendered alpha of a particle (line 601): linear interpolation from
1 toward 0 over its lifetime. -/
def alphaOf (p : Particle) : ℚ :=
  1 - p.life / p.maxLife

/-- One frame of a particle's lifecycle (lines 596-611): move and age the
particle, then drop it from the live set when its alpha has reached 0. -/
def particleStep (p : Particle) : Option Particle :=
  let q := ageParticle p
  if alphaOf q ≤ 0 then none else some q

/-- A fuel-driven Newton iteration for the integer square root, written so
that the kernel can evaluate it on concrete inputs. -/
def sqrtIter (n : ℕ) : ℕ → ℕ → ℕ
  | guess, 0 => guess
  | guess, fuel + 1 =>
    let next := (guess + n / guess) / 2
    if next < guess then sqrtIter n next fuel else guess

/-- Integer square root (rounding down), used to instantiate `MathEnv` at
concrete inputs. -/
def isqrt (n : ℕ) : ℕ :=
  if n ≤ 1 then n else sqrtIter n (n / 2) n

/-- A computable stand-in square root used to instantiate `MathEnv`: exact
on rationals whose numerator and denominator are perfect squares, which
covers every input at which the witnesses below evaluate it. -/
def ratSqrt (q : ℚ) : ℚ :=
  (isqrt q.num.toNat : ℚ) / (isqrt q.den : ℚ)

/-- Concrete environment used by witnesses and counterexamples: `ratSqrt`
for the square root (exact at every point where those proofs evaluate it)
and null oscillators. -/
def ratEnv : MathEnv :=
  { sqrt := ratSqrt, sin := fun _ => 0, cos := fun _ => 0, pi := 0 }

/-- Concrete configuration matching the source's initial UI state
(lines 194-211). -/
def cfgDefault : Config :=
  { numStreams := 3, startX := -10, startY := 50, endX := 110, endY := 50,
    layoutMode := LayoutMode.default, effectMode := EffectMode.default,
    audioReactive := false, enableStars := true, starDensity := 50,
    starLuminosity := 50, starFlickerSpeed := 50, enableSun := true,
    silkLuminosity := 100, silkSpeed := 50, variableSpeed := false }

/-- The tree layout with three streams, for claim C1. -/
def cfgTree3 : Config :=
  { cfgDefault with layoutMode := LayoutMode.tree, numStreams := 3 }

/-- The tree layout with a single stream, for claim C10. -/
def cfgTree1 : Config :=
  { cfgDefault with layoutMode := LayoutMode.tree, numStreams := 1 }

/-- A single default-layout stream, for claim C4. -/
def cfgOneStream : Config :=
  { cfgDefault with numStreams := 1 }

/-- Evaluation helper: `ratSqrt` at a natural number whose integer square
root is known. -/
lemma ratSqrt_eval (q : ℚ) (k : ℕ) (h1 : isqrt q.num.toNat = k)
    (h2 : q.den = 1) : ratSqrt q = (k : ℚ) := by
  rw [ratSqrt, h1, h2]
  have h3 : isqrt 1 = 1 := by decide
  rw [h3]
  norm_num

/-- The node list of `initStream` does not depend on the random draws:
projecting it reduces to the origin-placement loop alone. -/
lemma initStream_nodes (env : MathEnv) (cfg : Config) (w h : ℚ)
    (rng : ℕ → ℚ) (s : ℕ) :
    (initStream env cfg w h rng s).nodes = (List.range numNodesPerStream).map
      (fun i =>
        let o := nodeOrigin env cfg w h s i
        { x := o.1, y := o.2, ox := o.1, oy := o.2, vx := 0, vy := 0,
          phaseOffsetX := ((s : ℚ) / (cfg.numStreams : ℚ)) * env.pi * 4,
          phaseOffsetY := ((s : ℚ) / (cfg.numStreams : ℚ)) * env.pi * 2 + 1,
          streamIndex := s }) := rfl

/-- The initial local clock of `initStream` is its third random draw scaled
by 10000. -/
lemma initStream_localTime (env : MathEnv) (cfg : Config) (w h : ℚ)
    (rng : ℕ → ℚ) (s : ℕ) :
    (initStream env cfg w h rng s).localTime = rng (3 * s + 2) * 10000 := rfl

/-- `ratSqrt` is exact at `144`. -/
lemma ratSqrt_144 : ratSqrt 144 = 12 := by
  have h := ratSqrt_eval 144 12 (by decide) (by decide)
  simpa using h

/-- `ratSqrt` is exact at `169`. -/
lemma ratSqrt_169 : ratSqrt 169 = 13 := by
  have h := ratSqrt_eval 169 13 (by decide) (by decide)
  simpa using h

end StarSilk

namespace StarSilk

/-- Claim C6: for every quadruple of points, `catmullRom` evaluated at
`t = 0` returns `p1` exactly, in both coordinates. -/
theorem catmullRom_at_zero (p0 p1 p2 p3 : Vec2) :
    catmullRom p0 p1 p2 p3 0 = p1 := by
  obtain ⟨x1, y1⟩ := p1
  simp only [catmullRom, Vec2.mk.injEq]
  constructor <;> ring

/-- Claim C7: `normalize` returns the zero vector on the zero vector (the
division is explicitly guarded, never taken), maps `(3,4)` to `(3/5, 4/5)`
given that the square root is correct at `25`, and returns a unit-length
vector (squared norm `1`) for every input of nonzero squared length at
which the square root is correct. -/
theorem normalize_ok (env : MathEnv) (v : Vec2)
    (h5 : env.sqrt 25 = 5)
    (hv : env.sqrt (v.x * v.x + v.y * v.y) * env.sqrt (v.x * v.x + v.y * v.y)
          = v.x * v.x + v.y * v.y) :
    normalize env ⟨0, 0⟩ = ⟨0, 0⟩ ∧
    normalize env ⟨3, 4⟩ = ⟨3/5, 4/5⟩ ∧
    (v.x * v.x + v.y * v.y ≠ 0 →
      (normalize env v).x * (normalize env v).x
        + (normalize env v).y * (normalize env v).y = 1) := by
  refine ⟨?_, ?_, ?_⟩
  · by_cases h : hypot env 0 0 = 0
    · simp [normalize, h]
    · simp [normalize, h]
  · have harg : hypot env (3 : ℚ) 4 = 5 := by
      have h25 : ((3 : ℚ) * 3 + 4 * 4) = 25 := by norm_num
      show env.sqrt ((3 : ℚ) * 3 + 4 * 4) = 5
      rw [h25, h5]
    have hne : hypot env (3 : ℚ) 4 ≠ 0 := by rw [harg]; norm_num
    simp only [normalize, hne, if_false, harg]
    norm_num
  · intro hS
    have hlen : env.sqrt (v.x * v.x + v.y * v.y) ≠ 0 := by
      intro h0
      rw [h0, mul_zero] at hv
      exact hS hv.symm
    simp only [normalize, hypot]
    rw [if_neg hlen]
    field_simp
    linarith [hv]

/-- Closed witness for C7 at the concrete input `(3, 4)` with the
computable square root. -/
theorem normalize_ok_witness :
    normalize ratEnv ⟨0, 0⟩ = ⟨0, 0⟩ ∧
    normalize ratEnv ⟨3, 4⟩ = ⟨3/5, 4/5⟩ ∧
    ((3 : ℚ) * 3 + 4 * 4 ≠ 0 →
      (normalize ratEnv ⟨3, 4⟩).x * (normalize ratEnv ⟨3, 4⟩).x
        + (normalize ratEnv ⟨3, 4⟩).y * (normalize ratEnv ⟨3, 4⟩).y = 1) := by
  have h5 : ratEnv.sqrt 25 = 5 := ratSqrt_eval 25 5 (by decide) (by decide)
  have hv : ratEnv.sqrt ((3 : ℚ) * 3 + 4 * 4) = 5 := by
    have h25 : ((3 : ℚ) * 3 + 4 * 4) = 25 := by norm_num
    rw [h25]; exact h5
  exact normalize_ok ratEnv ⟨3, 4⟩ h5 (by rw [show ((⟨3, 4⟩ : Vec2).x * (⟨3, 4⟩ : Vec2).x + (⟨3, 4⟩ : Vec2).y * (⟨3, 4⟩ : Vec2).y) = (3 : ℚ) * 3 + 4 * 4 from rfl, hv]; norm_num)

/-- Claim C5: when the total accumulated force of a frame is zero (the
drift-and-gravity target coincides with the node's position and the pointer
is out of interaction range), one integration step scales the velocity
componentwise by exactly 0.90 — hence the magnitude by exactly 0.90, as the
squared-norm identity records — for every layout mode, effect mode and
frame time. -/
theorem damping_ok (env : MathEnv) (cfg : Config) (node : SilkNode)
    (time : ℚ) (index : ℕ) (mouseX mouseY audioSim winW winH : ℚ)
    (ht : targetOf env cfg node time index audioSim winW winH = (node.x, node.y))
    (hd : 400 ≤ hypot env (node.x - mouseX) (node.y - mouseY)) :
    (SilkNode.update env cfg node time index mouseX mouseY audioSim winW winH).vx
      = (9/10) * node.vx ∧
    (SilkNode.update env cfg node time index mouseX mouseY audioSim winW winH).vy
      = (9/10) * node.vy ∧
    (SilkNode.update env cfg node time index mouseX mouseY audioSim winW winH).vx ^ 2
      + (SilkNode.update env cfg node time index mouseX mouseY audioSim winW winH).vy ^ 2
      = (81/100) * (node.vx ^ 2 + node.vy ^ 2) := by
  have hm : mouseDelta env cfg node mouseX mouseY = (0, 0) := by
    simp only [mouseDelta]
    split
    · split
      · next hc => exact absurd hc.1 (by linarith)
      · rfl
    · split
      · next hc => exact absurd hc.1 (by linarith)
      · rfl
  simp only [SilkNode.update, hm, ht]
  refine ⟨by ring, by ring, by ring⟩

/-- Concrete node used by witnesses. -/
def nodeW : SilkNode :=
  { x := 0, y := 0, ox := 0, oy := 0, vx := 4, vy := 3,
    phaseOffsetX := 0, phaseOffsetY := 0, streamIndex := 0 }

/-- Closed witness for C5: the concrete node `nodeW` with the pointer 400
pixels below it. -/
theorem damping_ok_witness :
    (SilkNode.update ratEnv cfgDefault nodeW 0 0 0 (-400) 0 0 0).vx
      = (9/10) * nodeW.vx ∧
    (SilkNode.update ratEnv cfgDefault nodeW 0 0 0 (-400) 0 0 0).vy
      = (9/10) * nodeW.vy ∧
    (SilkNode.update ratEnv cfgDefault nodeW 0 0 0 (-400) 0 0 0).vx ^ 2
      + (SilkNode.update ratEnv cfgDefault nodeW 0 0 0 (-400) 0 0 0).vy ^ 2
      = (81/100) * (nodeW.vx ^ 2 + nodeW.vy ^ 2) := by
  have ht : targetOf ratEnv cfgDefault nodeW 0 0 0 0 0 = (nodeW.x, nodeW.y) := by
    simp [targetOf, driftOf, ratEnv, cfgDefault, nodeW]
  have hd : 400 ≤ hypot ratEnv (nodeW.x - 0) (nodeW.y - (-400)) := by
    have harg : (nodeW.x - 0) * (nodeW.x - 0) + (nodeW.y - (-400)) * (nodeW.y - (-400))
        = (160000 : ℚ) := by norm_num [nodeW]
    have hval : hypot ratEnv (nodeW.x - 0) (nodeW.y - (-400)) = ((400 : ℕ) : ℚ) := by
      show ratSqrt ((nodeW.x - 0) * (nodeW.x - 0) + (nodeW.y - (-400)) * (nodeW.y - (-400)))
        = ((400 : ℕ) : ℚ)
      rw [harg]
      exact ratSqrt_eval 160000 400 (by decide) (by decide)
    rw [hval]
    norm_num
  exact damping_ok ratEnv cfgDefault nodeW 0 0 0 (-400) 0 0 0 ht hd

/-- Claim C8: with the pointer exactly at a node's position under the
`default` effect mode, the pointer distance is zero and the repulsion term
is gated off — the pointer interaction contributes exactly zero velocity, so
no division at distance zero is ever taken. -/
theorem pointer_gate_ok (env : MathEnv) (cfg : Config) (node : SilkNode)
    (hm : cfg.effectMode = EffectMode.default) (h0 : env.sqrt 0 = 0) :
    hypot env (node.x - node.x) (node.y - node.y) = 0 ∧
    mouseDelta env cfg node node.x node.y = (0, 0) := by
  have hzero : hypot env (node.x - node.x) (node.y - node.y) = 0 := by
    show env.sqrt ((node.x - node.x) * (node.x - node.x)
      + (node.y - node.y) * (node.y - node.y)) = 0
    rw [show (node.x - node.x) * (node.x - node.x)
      + (node.y - node.y) * (node.y - node.y) = (0 : ℚ) from by ring, h0]
  refine ⟨hzero, ?_⟩
  simp only [mouseDelta, hm]
  rw [if_neg (by simp : ¬(EffectMode.default = EffectMode.vortex))]
  rw [if_neg]
  intro hc
  rw [hzero] at hc
  exact absurd hc.2 (by norm_num)

/-- Closed witness for C8 at the concrete node `nodeW`. -/
theorem pointer_gate_ok_witness :
    hypot ratEnv (nodeW.x - nodeW.x) (nodeW.y - nodeW.y) = 0 ∧
    mouseDelta ratEnv cfgDefault nodeW nodeW.x nodeW.y = (0, 0) := by
  have h0 : ratEnv.sqrt 0 = 0 := by
    have h := ratSqrt_eval 0 0 (by decide) (by decide)
    simpa using h
  exact pointer_gate_ok ratEnv cfgDefault nodeW rfl h0

/-- The surges effect, for claims about `surgeCheck`. -/
def cfgSurges : Config :=
  { cfgDefault with effectMode := EffectMode.surges }

/-- Claim C3: under the `surges` effect a stream is surging exactly when
its local clock exceeds its surge threshold; the threshold is left in place
throughout the 800-time-unit window after it, and the first frame past that
window reschedules it to `sTime + 2000 + rand·8000`, strictly beyond the
current stream time; while surging, the barcode flow speed triples and the
base-band render intensity is raised. -/
theorem surges_ok (cfg : Config) (sTime surgeTime rand : ℚ)
    (hm : cfg.effectMode = EffectMode.surges) (hr : 0 ≤ rand) :
    ((surgeCheck cfg.effectMode sTime surgeTime rand).1 = true ↔ surgeTime < sTime) ∧
    (sTime ≤ surgeTime + 800 →
      (surgeCheck cfg.effectMode sTime surgeTime rand).2 = surgeTime) ∧
    (surgeTime + 800 < sTime →
      (surgeCheck cfg.effectMode sTime surgeTime rand).2 = sTime + 2000 + rand * 8000 ∧
      sTime < (surgeCheck cfg.effectMode sTime surgeTime rand).2) ∧
    driftSpeedOf cfg sTime true = 3 * driftSpeedOf cfg sTime false ∧
    baseBandAlpha false < baseBandAlpha true := by
  rw [hm]
  refine ⟨?_, ?_, ?_, ?_, by norm_num [baseBandAlpha]⟩
  · by_cases h : surgeTime < sTime
    · simp [surgeCheck, h]
    · simp [surgeCheck, h]
  · intro h800
    by_cases h : surgeTime < sTime
    · have hnot : ¬ surgeTime + 800 < sTime := by linarith
      simp [surgeCheck, h, hnot]
    · simp [surgeCheck, h]
  · intro h800
    have h : surgeTime < sTime := by linarith
    have hsched : (surgeCheck EffectMode.surges sTime surgeTime rand).2
        = sTime + 2000 + rand * 8000 := by
      simp [surgeCheck, h, h800]
    refine ⟨hsched, ?_⟩
    rw [hsched]
    have h8 : 0 ≤ rand * 8000 := mul_nonneg hr (by norm_num)
    linarith
  · have h3 : (if (true : Bool) = true then (3 : ℚ) else 1) = 3 := by norm_num
    have h1 : (if (false : Bool) = true then (3 : ℚ) else 1) = 1 := by norm_num
    simp only [driftSpeedOf, h3, h1, if_true, ite_true]
    ring

/-- Closed witness for C3: stream time 900 against threshold 0 with a zero
reschedule draw. -/
theorem surges_ok_witness :
    ((surgeCheck cfgSurges.effectMode 900 0 0).1 = true ↔ (0 : ℚ) < 900) ∧
    ((900 : ℚ) ≤ 0 + 800 → (surgeCheck cfgSurges.effectMode 900 0 0).2 = 0) ∧
    ((0 : ℚ) + 800 < 900 →
      (surgeCheck cfgSurges.effectMode 900 0 0).2 = 900 + 2000 + 0 * 8000 ∧
      (900 : ℚ) < (surgeCheck cfgSurges.effectMode 900 0 0).2) ∧
    driftSpeedOf cfgSurges 900 true = 3 * driftSpeedOf cfgSurges 900 false ∧
    baseBandAlpha false < baseBandAlpha true :=
  surges_ok cfgSurges 900 0 0 rfl (by norm_num)

/-- Claim C9: a particle ages by exactly one unit per frame, its alpha is
the linear interpolation `1 - age/maxAge`, strictly positive while
`age < maxAge`, and the lifecycle step removes the particle exactly when
the incremented age has reached `maxAge`. -/
theorem particle_ok (p : Particle) (hM : 0 < p.maxLife) :
    (ageParticle p).life = p.life + 1 ∧
    alphaOf p = 1 - p.life / p.maxLife ∧
    (p.life < p.maxLife → 0 < alphaOf p) ∧
    (particleStep p = none ↔ p.maxLife ≤ p.life + 1) ∧
    (particleStep p = some (ageParticle p) ↔ p.life + 1 < p.maxLife) := by
  have hlife : (ageParticle p).life = p.life + 1 := rfl
  have hmax : (ageParticle p).maxLife = p.maxLife := rfl
  have key : alphaOf (ageParticle p) ≤ 0 ↔ p.maxLife ≤ p.life + 1 := by
    simp only [alphaOf, hlife, hmax]
    constructor
    · intro hle
      have h1 : 1 ≤ (p.life + 1) / p.maxLife := by linarith
      exact (one_le_div hM).mp h1
    · intro hle
      have h1 : 1 ≤ (p.life + 1) / p.maxLife := (one_le_div hM).mpr hle
      linarith
  refine ⟨rfl, rfl, ?_, ?_, ?_⟩
  · intro h
    have h1 : p.life / p.maxLife < 1 := (div_lt_one hM).mpr h
    simp only [alphaOf]
    linarith
  · constructor
    · intro hstep
      by_cases hc : alphaOf (ageParticle p) ≤ 0
      · exact key.mp hc
      · simp only [particleStep, if_neg hc] at hstep
        exact absurd hstep (by simp)
    · intro hle
      simp only [particleStep, if_pos (key.mpr hle)]
  · constructor
    · intro hstep
      by_cases hc : alphaOf (ageParticle p) ≤ 0
      · simp only [particleStep, if_pos hc] at hstep
        exact absurd hstep (by simp)
      · exact lt_of_not_le fun hle => hc (key.mpr hle)
    · intro hlt
      have hc : ¬ alphaOf (ageParticle p) ≤ 0 := fun hc => absurd (key.mp hc) (not_le.mpr hlt)
      simp only [particleStep, if_neg hc]

/-- Concrete particle used by the C9 witness. -/
def particleW : Particle :=
  { x := 0, y := 0, vx := 1, vy := 0, life := 0, maxLife := 30, size := 1,
    color := "w" }

/-- Closed witness for C9 at the concrete particle `particleW`. -/
theorem particle_ok_witness :
    (ageParticle particleW).life = particleW.life + 1 ∧
    alphaOf particleW = 1 - particleW.life / particleW.maxLife ∧
    (particleW.life < particleW.maxLife → 0 < alphaOf particleW) ∧
    (particleStep particleW = none ↔ particleW.maxLife ≤ particleW.life + 1) ∧
    (particleStep particleW = some (ageParticle particleW) ↔
      particleW.life + 1 < particleW.maxLife) :=
  particle_ok particleW (by show (0 : ℚ) < 30; norm_num)

/-- Claim C10: in the `tree` layout with a single stream, the fan position
`(s / max(1, streamCount - 1)) × width` evaluates to `0` for `s = 0`, so
the last node's origin lands on the left edge, at `(0, -0.1 × height)` —
for every surface size and every square-root environment (the perpendicular
spacing term is zero for the middle stream, so the normal never
contributes). -/
theorem tree_single_stream_ok (env : MathEnv) (cfg : Config) (w h : ℚ)
    (hm : cfg.layoutMode = LayoutMode.tree) (hn : cfg.numStreams = 1) :
    nodeOrigin env cfg w h 0 (numNodesPerStream - 1) = (0, h * (-(1/10))) := by
  have hmax : (max 1 (1 - 1) : ℕ) = 1 := by decide
  have hfloor : ((1 : ℕ) / 2 : ℕ) = 0 := by decide
  simp only [nodeOrigin, streamStart, streamEnd, perpOffset, hm, hn, hmax, hfloor,
    numNodesPerStream]
  norm_num

/-- Closed witness for C10 on a 10×10 surface. -/
theorem tree_single_stream_ok_witness :
    nodeOrigin ratEnv cfgTree1 10 10 0 (numNodesPerStream - 1)
      = (0, 10 * (-(1/10))) :=
  tree_single_stream_ok ratEnv cfgTree1 10 10 rfl rfl

/-- Counterexample to claim C1 as stated: on a 10×10 surface with the
`tree` layout and three streams, the middle stream's first node origin is
at `(width/2, height×1.1) = (5, 11)`, but the first stream's first node
origin is not — and the first stream's last node origin is not at
`(width×0, height×-0.1) = (0, -1)` — because each node origin also carries
the per-stream perpendicular offset `(s - floor(streamCount/2)) × 30`. -/
theorem tree_layout_counterexample :
    nodeOrigin ratEnv cfgTree3 10 10 1 0 = (5, 11) ∧
    nodeOrigin ratEnv cfgTree3 10 10 0 0 ≠ (5, 11) ∧
    nodeOrigin ratEnv cfgTree3 10 10 0 (numNodesPerStream - 1) ≠ (0, -1) := by
  have hr : (LayoutMode.tree = LayoutMode.river) = False :=
    eq_false (fun hco => by cases hco)
  have hd : (LayoutMode.tree = LayoutMode.dna) = False :=
    eq_false (fun hco => by cases hco)
  have hcv : (LayoutMode.tree = LayoutMode.convergence) = False :=
    eq_false (fun hco => by cases hco)
  refine ⟨?_, ?_, ?_⟩ <;>
    norm_num [nodeOrigin, streamStart, streamEnd, perpOffset, streamNormalOf,
      getNormal, normalize, hypot, cfgTree3, cfgDefault, numNodesPerStream,
      ratEnv, ratSqrt_144, ratSqrt_169, hr, hd, hcv]

/-- Claim C1 (amended): in the `tree` layout with three streams all
streams share the start anchor `(width/2, height×1.1)` and are fanned to
end anchors `x = width×{0, 1/2, 1}` on the line `y = -height/10`, but each
node origin additionally carries a perpendicular offset of `(s-1)×30`
pixels along the stream normal; thus exactly the middle stream's first and
last node origins lie at `(width/2, height×1.1)` and
`(width/2, -height/10)`. -/
theorem tree_layout_ok (env : MathEnv) (cfg : Config) (w h : ℚ) (s i : ℕ)
    (hm : cfg.layoutMode = LayoutMode.tree) (hn : cfg.numStreams = 3)
    (_hs : s < 3) :
    nodeOrigin env cfg w h 1 0 = (w / 2, (11/10) * h) ∧
    nodeOrigin env cfg w h 1 (numNodesPerStream - 1) = (w / 2, -((1/10) * h)) ∧
    nodeOrigin env cfg w h s i =
      (w / 2 + (i : ℚ) / 39 * ((s : ℚ) / 2 * w - w / 2)
         + (streamNormalOf env cfg w h s).x * (((s : ℚ) - 1) * 30),
       (11/10) * h + (i : ℚ) / 39 * (-(12/10) * h)
         + (streamNormalOf env cfg w h s).y * (((s : ℚ) - 1) * 30)) := by
  have hmax : (max 1 (3 - 1) : ℕ) = 2 := by decide
  have hfloor : ((3 : ℕ) / 2 : ℕ) = 1 := by decide
  have hr : (LayoutMode.tree = LayoutMode.river) = False :=
    eq_false (fun hco => by cases hco)
  have hd : (LayoutMode.tree = LayoutMode.dna) = False :=
    eq_false (fun hco => by cases hco)
  have hcv : (LayoutMode.tree = LayoutMode.convergence) = False :=
    eq_false (fun hco => by cases hco)
  refine ⟨?_, ?_, ?_⟩ <;>
  · simp only [nodeOrigin, streamStart, streamEnd, perpOffset, hm, hn, hmax, hfloor,
      numNodesPerStream, hr, hd, hcv, eq_self_iff_true, if_true, ite_true, ite_false,
      if_false]
    rw [Prod.mk.injEq]
    push_cast
    constructor <;> ring

/-- Closed witness for C1 (amended) on a 10×10 surface, at stream 0,
node 39. -/
theorem tree_layout_ok_witness :
    nodeOrigin ratEnv cfgTree3 10 10 1 0 = (10 / 2, (11/10) * 10) ∧
    nodeOrigin ratEnv cfgTree3 10 10 1 (numNodesPerStream - 1)
      = (10 / 2, -((1/10) * 10)) ∧
    nodeOrigin ratEnv cfgTree3 10 10 0 39 =
      (10 / 2 + ((39 : ℕ) : ℚ) / 39 * (((0 : ℕ) : ℚ) / 2 * 10 - 10 / 2)
         + (streamNormalOf ratEnv cfgTree3 10 10 0).x * ((((0 : ℕ) : ℚ) - 1) * 30),
       (11/10) * 10 + ((39 : ℕ) : ℚ) / 39 * (-(12/10) * 10)
         + (streamNormalOf ratEnv cfgTree3 10 10 0).y * ((((0 : ℕ) : ℚ) - 1) * 30)) :=
  tree_layout_ok ratEnv cfgTree3 10 10 0 39 rfl rfl (by norm_num)

/-- Counterexample to claim C4 as stated: two runs of the Layout Engine
that differ only in their random draws produce identical node lists but
different `localTime` values, so the randomness of stream initialization is
not confined to the `surgeTime` and `speedMultiplier` fields — `localTime`
is randomized too (`Math.random() * 10000`, Starsilk.tsx line 362). -/
theorem layout_rng_counterexample :
    (initNodes ratEnv cfgOneStream 10 10 (fun _ => 0)).map SilkStream.localTime
      ≠ (initNodes ratEnv cfgOneStream 10 10 (fun _ => 1/2)).map SilkStream.localTime ∧
    (initNodes ratEnv cfgOneStream 10 10 (fun _ => 0)).map SilkStream.nodes
      = (initNodes ratEnv cfgOneStream 10 10 (fun _ => 1/2)).map SilkStream.nodes := by
  have hrange : List.range 1 = [0] := rfl
  have hnum : cfgOneStream.numStreams = 1 := rfl
  constructor
  · have h0 : (initNodes ratEnv cfgOneStream 10 10 (fun _ => 0)).map SilkStream.localTime
        = [0] := by
      simp only [initNodes, hnum, hrange, List.map_map, List.map_cons,
        List.map_nil, Function.comp_apply, initStream_localTime]
      norm_num [List.cons.injEq]
    have h5 : (initNodes ratEnv cfgOneStream 10 10 (fun _ => 1/2)).map SilkStream.localTime
        = [5000] := by
      simp only [initNodes, hnum, hrange, List.map_map, List.map_cons,
        List.map_nil, Function.comp_apply, initStream_localTime]
      norm_num [List.cons.injEq]
    intro hEq
    rw [h0, h5] at hEq
    injection hEq with h1 h2
    exact absurd h1 (by norm_num)
  · simp only [initNodes, List.map_map]
    refine List.map_congr_left (fun a _ => ?_)
    show (initStream ratEnv cfgOneStream 10 10 (fun _ => 0) a).nodes
      = (initStream ratEnv cfgOneStream 10 10 (fun _ => 1/2) a).nodes
    rw [initStream_nodes, initStream_nodes]

/-- Claim C4 (amended): the Layout Engine is deterministic in everything
except the random draws — for a fixed environment, Config and surface size,
two runs with different random streams agree on every stream's node list
(hence on every node origin) and color phase; the randomness of stream
initialization is confined to the `surgeTime`, `speedMultiplier` and
`localTime` fields. -/
theorem layout_deterministic (env : MathEnv) (cfg : Config) (w h : ℚ)
    (rng1 rng2 : ℕ → ℚ) :
    (initNodes env cfg w h rng1).map (fun st => (st.nodes, st.colorPhase))
      = (initNodes env cfg w h rng2).map (fun st => (st.nodes, st.colorPhase)) := by
  simp only [initNodes, List.map_map]
  rfl

/-- Counterexample to claim C2 as stated: inside `[0,1)` the draws mapped
to "no line" form exactly the interval `[0, 3/10]` and the draws mapped to
the medium-intensity line form exactly `(3/10, 4/5]`, so the no-line
probability (3/10) is strictly smaller than the medium-line probability
(1/2) — the converse of the claimed ≈50% none / ≈30% medium split. -/
theorem striation_counterexample :
    {r : ℚ | r ∈ Set.Ico (0 : ℚ) 1 ∧ striationTier false r = Tier.noLine}
      = Set.Icc (0 : ℚ) (3/10) ∧
    {r : ℚ | r ∈ Set.Ico (0 : ℚ) 1 ∧ striationTier false r = Tier.mediumLine}
      = Set.Ioc (3/10 : ℚ) (4/5) ∧
    ((3 : ℚ)/10 - 0 < (4 : ℚ)/5 - 3/10) := by
  refine ⟨?_, ?_, by norm_num⟩
  · ext r
    simp only [Set.mem_setOf_eq, Set.mem_Ico, Set.mem_Icc]
    constructor
    · rintro ⟨⟨hr0, hr1⟩, ht⟩
      refine ⟨hr0, ?_⟩
      by_contra hgt
      push_neg at hgt
      by_cases ha : (4 : ℚ)/5 < r
      · simp [striationTier, lineIntensity, tierOf, ha] at ht
      · simp [striationTier, lineIntensity, tierOf, ha, hgt] at ht
    · rintro ⟨hr0, hr3⟩
      have hr1 : r < 1 := by linarith
      have ha : ¬((4 : ℚ)/5 < r) := by intro hco; linarith
      have hb : ¬((3 : ℚ)/10 < r) := by intro hco; linarith
      exact ⟨⟨hr0, hr1⟩, by simp [striationTier, lineIntensity, tierOf, ha, hb]⟩
  · ext r
    simp only [Set.mem_setOf_eq, Set.mem_Ico, Set.mem_Ioc]
    constructor
    · rintro ⟨⟨hr0, hr1⟩, ht⟩
      by_cases ha : (4 : ℚ)/5 < r
      · simp [striationTier, lineIntensity, tierOf, ha] at ht
      · by_cases hb : (3 : ℚ)/10 < r
        · exact ⟨hb, by linarith⟩
        · simp [striationTier, lineIntensity, tierOf, ha, hb] at ht
    · rintro ⟨hb, ha⟩
      have hr0 : (0 : ℚ) ≤ r := by linarith
      have hr1 : r < 1 := by linarith
      have ha' : ¬((4 : ℚ)/5 < r) := by intro hco; linarith
      exact ⟨⟨hr0, hr1⟩, by simp [striationTier, lineIntensity, tierOf, ha', hb]⟩

/-- Claim C2 (amended): for a curve point that passed both striation gates
while the stream is not surging, the uniform draw `r ∈ [0,1)` selects no
line for `r ≤ 3/10` (probability 30%), the medium-intensity line for
`3/10 < r ≤ 4/5` (probability 50%) and the maximum-intensity line for
`r > 4/5` (probability 20%); while surging the outcome is the
maximum-intensity line with probability 100%. -/
theorem striation_ok (r : ℚ) (_h0 : 0 ≤ r) (h1 : r < 1) :
    (striationTier false r = Tier.noLine ↔ r ≤ 3/10) ∧
    (striationTier false r = Tier.mediumLine ↔ 3/10 < r ∧ r ≤ 4/5) ∧
    (striationTier false r = Tier.maxLine ↔ 4/5 < r) ∧
    striationTier true r = Tier.maxLine := by
  have htrue : striationTier true r = Tier.maxLine := by
    have h45 : (4 : ℚ)/5 < 1 := by norm_num
    simp [striationTier, lineIntensity, tierOf, h45]
  have hfr : striationTier false r = tierOf r := by
    simp [striationTier, lineIntensity]
  rw [hfr]
  by_cases ha : (4 : ℚ)/5 < r
  · have ht : tierOf r = Tier.maxLine := by simp [tierOf, ha]
    rw [ht]
    exact ⟨iff_of_false (by decide) (by intro hco; linarith),
      iff_of_false (by decide) (fun hco => absurd hco.2 (not_le.mpr ha)),
      iff_of_true rfl ha, htrue⟩
  · by_cases hb : (3 : ℚ)/10 < r
    · have ht : tierOf r = Tier.mediumLine := by simp [tierOf, ha, hb]
      rw [ht]
      exact ⟨iff_of_false (by decide) (by intro hco; linarith),
        iff_of_true rfl ⟨hb, not_lt.mp ha⟩,
        iff_of_false (by decide) ha, htrue⟩
    · have ht : tierOf r = Tier.noLine := by simp [tierOf, ha, hb]
      rw [ht]
      exact ⟨iff_of_true rfl (not_lt.mp hb),
        iff_of_false (by decide) (fun hco => absurd hco.1 hb),
        iff_of_false (by decide) ha, htrue⟩

/-- Closed witness for C2 (amended) at the concrete draw `r = 1/2`. -/
theorem striation_ok_witness :
    (striationTier false (1/2) = Tier.noLine ↔ (1 : ℚ)/2 ≤ 3/10) ∧
    (striationTier false (1/2) = Tier.mediumLine ↔
      (3 : ℚ)/10 < 1/2 ∧ (1 : ℚ)/2 ≤ 4/5) ∧
    (striationTier false (1/2) = Tier.maxLine ↔ (4 : ℚ)/5 < 1/2) ∧
    striationTier true (1/2) = Tier.maxLine :=
  striation_ok (1/2) (by norm_num) (by norm_num)

end StarSilk
